import Mathlib

/-!
Shallow embedding of the two MoviePilot plugins
(`plexpartialrefresh/__init__.py` and `hardlinkjacker/__init__.py`)
and proofs about the batched, debounced refresh scheduler, the
configuration clamping, the path handling and the hard-link logic.

External effects (filesystem queries, HTTP calls, timers) are modelled
by explicit oracles/environments; the shared lock of the Python code is
modelled by making each lock-guarded critical section one atomic step
of a state machine.
-/

namespace PlexPartialRefresh

/-! ### A fragment of `pathlib.PurePosixPath`

`_get_parent_path` uses `Path(file_path)`, `.parent`, `.name`, `str(...)`.
We embed the POSIX parsing rules that matter here: split on `/`,
drop empty and `.` components, remember absoluteness. -/

/-- Split a character list on `/` (keeping empty segments, like
`"a//b".split("/")`). -/
def splitOnSlash : List Char → List (List Char)
  | [] => [[]]
  | c :: cs =>
    let r := splitOnSlash cs
    if c = '/' then [] :: r
    else
      match r with
      | [] => [[c]]
      | h :: t => (c :: h) :: t

/-- A path component survives `PurePosixPath` parsing iff it is neither
empty nor `"."`. -/
def pathCompOk (c : List Char) : Bool :=
  !c.isEmpty && !(c = ['.'] : Bool)

/-- The `PurePosixPath` value: absoluteness flag plus components. -/
structure PyPath where
  absolute : Bool
  comps : List (List Char)
deriving DecidableEq, Repr

/-- `Path(s)` for POSIX paths. -/
def parsePath (s : String) : PyPath :=
  { absolute := match s.data with
      | '/' :: _ => true
      | _ => false,
    comps := (splitOnSlash s.data).filter pathCompOk }

/-- Join components with `/`. -/
def renderComps : List (List Char) → List Char
  | [] => []
  | [c] => c
  | c :: rest => c ++ '/' :: renderComps rest

/-- `str(path)`: `/`-joined components, `"/"` for the absolute root,
`"."` for the empty relative path. -/
def pathStr (p : PyPath) : String :=
  if p.absolute then ⟨'/' :: renderComps p.comps⟩
  else if p.comps.isEmpty then "." else ⟨renderComps p.comps⟩

/-- `path.parent`: drop the last component. -/
def pathParent (p : PyPath) : PyPath :=
  { absolute := p.absolute, comps := p.comps.dropLast }

/-- `path.name` as a character list (`""` for the root / empty path). -/
def pathNameChars (p : PyPath) : List Char :=
  match p.comps.getLast? with
  | some c => c
  | none => []

/-- The extension allowlist of `_get_parent_path`:
`['.mkv', '.mp4', '.avi', '.ts', '.m2ts']`. -/
def mediaExts : List (List Char) :=
  [".mkv".data, ".mp4".data, ".avi".data, ".ts".data, ".m2ts".data]

/-- `any(path.name.endswith(ext) for ext in [...])`. -/
def hasMediaExt (name : List Char) : Bool :=
  mediaExts.any (fun ext => ext.isSuffixOf name)

/-- `_get_parent_path(file_path)`: if the path is a file on disk
(`path.is_file()`, modelled by the oracle `isFile` applied to the
normalized path string) or its name ends with a recognized media
extension, return `str(path.parent)`; otherwise return `str(path)`. -/
def get_parent_path (isFile : String → Bool) (file_path : String) : String :=
  let path := parsePath file_path
  if isFile (pathStr path) || hasMediaExt (pathNameChars path) then
    pathStr (pathParent path)
  else
    pathStr path

/-- The batching key as the spec sentence states it, word for word:
"the path's parent directory — except that if the path denotes a
directory rather than a recognized media file, the key is the path
itself."  Second definition following the spec's words (with the
directory test as an `isDir` oracle), for comparison with
`get_parent_path`, which is translated from the source. -/
def spec_parent_key (isDir : String → Bool) (file_path : String) : String :=
  let path := parsePath file_path
  if isDir (pathStr path) then pathStr path else pathStr (pathParent path)

/-! ### Scheduler state

`_pending_refreshes : defaultdict(set)` and `_refresh_timers : dict`
become insertion-ordered association lists (Python dict semantics).
Timers are identified by creation order (`nextId`); `cancelled` records
every id on which `.cancel()` was called. -/

/-- Set membership of `dict`-style association lists. -/
def assocFind {α : Type} (k : String) : List (String × α) → Option α
  | [] => none
  | (k', v) :: rest => if k' = k then some v else assocFind k rest

/-- `d[k] = v`: replace in place if present, else append (Python dict
insertion order). -/
def assocSet {α : Type} (k : String) (v : α) : List (String × α) → List (String × α)
  | [] => [(k, v)]
  | (k', v') :: rest => if k' = k then (k, v) :: rest else (k', v') :: assocSet k v rest

/-- `del d[k]`. -/
def assocErase {α : Type} (k : String) : List (String × α) → List (String × α)
  | [] => []
  | (k', v') :: rest => if k' = k then assocErase k rest else (k', v') :: assocErase k rest

/-- `set.add`: Python sets deduplicate; we keep insertion order. -/
def setAdd (p : String) (l : List String) : List String :=
  if p ∈ l then l else l ++ [p]

/-- The lock-guarded shared state of the scheduler. -/
structure SchedState where
  /-- `_pending_refreshes`: parent path ↦ pending child paths. -/
  pending : List (String × List String)
  /-- `_refresh_timers`: parent path ↦ id of the live `threading.Timer`. -/
  timers : List (String × Nat)
  /-- Ids of timers on which `.cancel()` has been called. -/
  cancelled : List Nat
  /-- Next fresh timer id. -/
  nextId : Nat
deriving DecidableEq, Repr

/-- The state before any event: both class-level dicts empty. -/
def initState : SchedState :=
  { pending := [], timers := [], cancelled := [], nextId := 0 }

/-- `_schedule_batch_refresh(plex_path)`: the whole body is one
`with self._timer_lock:` critical section — compute the batching key,
add the path to the pending set, cancel a prior timer for the key if
present, and register a fresh timer for the key. -/
def schedule_batch_refresh (isFile : String → Bool) (plex_path : String)
    (s : SchedState) : SchedState :=
  let parent := get_parent_path isFile plex_path
  let oldSet := (assocFind parent s.pending).getD []
  let cancelled' :=
    match assocFind parent s.timers with
    | some tid => tid :: s.cancelled
    | none => s.cancelled
  { pending := assocSet parent (setAdd plex_path oldSet) s.pending,
    timers := assocSet parent s.nextId s.timers,
    cancelled := cancelled',
    nextId := s.nextId + 1 }

/-- A sequence of `_schedule_batch_refresh` calls. -/
def scheduleSeq (isFile : String → Bool) : List String → SchedState → SchedState
  | [], s => s
  | p :: rest, s => scheduleSeq isFile rest (schedule_batch_refresh isFile p s)

/-- The first, lock-guarded half of `_execute_batch_refresh`: if the key
is absent from `_pending_refreshes`, return with the state untouched;
otherwise remove (and return) the pending set and drop the timer map
entry for the key. -/
def captureBatch (parent : String) (s : SchedState) :
    SchedState × Option (List String) :=
  match assocFind parent s.pending with
  | none => (s, none)
  | some paths =>
    let timers' :=
      match assocFind parent s.timers with
      | some _ => assocErase parent s.timers
      | none => s.timers
    ({ s with pending := assocErase parent s.pending, timers := timers' },
     some paths)

/-- `stop_service()`: one critical section that cancels every still-alive
timer referenced by `_refresh_timers` (alive is modelled as
"not previously cancelled") and clears both dicts. -/
def stop_service (s : SchedState) : SchedState :=
  { pending := [],
    timers := [],
    cancelled := s.cancelled ++
      s.timers.filterMap
        (fun kv => if kv.2 ∈ s.cancelled then none else some kv.2),
    nextId := s.nextId }

/-! ### Configuration: the `batch_delay` clamp in `init_plugin` -/

/-- The `config.get("batch_delay", 60)` value as seen by `int(...)`:
the key may be missing, hold something `int()` accepts, or hold
something on which `int()` raises `ValueError`/`TypeError`. -/
inductive BatchDelayConfig where
  | missing
  | parsed (n : Int)
  | unparseable
deriving DecidableEq, Repr

/-- The `if/elif` clamp of `init_plugin`. -/
def clampDelay (n : Int) : Int :=
  if n < 10 then 10 else if 300 < n then 300 else n

/-- The effective `_batch_delay` computed by `init_plugin`:
`int(config.get("batch_delay", 60))` clamped to `[10, 300]`, with the
`except (ValueError, TypeError)` branch assigning 60. -/
def init_batch_delay : BatchDelayConfig → Int
  | .missing => clampDelay 60
  | .parsed n => clampDelay n
  | .unparseable => 60

/-! ### The HTTP refresh call `_refresh_plex_path_http` and its helpers

Exceptions of the Python runtime are modelled by `PyExc`, external calls
by `Except PyExc`-valued oracle fields; a `try/except` of the source
becomes a `match` on the `Except` value. -/

/-- The exceptions relevant to this code: `requests` network errors,
`raise_for_status` HTTP errors, and anything else. -/
inductive PyExc where
  | requestError
  | httpError (status : Nat)
  | other
deriving DecidableEq, Repr

/-- `str.replace(a, b)` for single-character arguments: character-wise
substitution (single-character patterns cannot overlap). -/
def pyReplaceChar (s : String) (a b : Char) : String :=
  ⟨s.data.map fun c => if c = a then b else c⟩

/-- `response.raise_for_status()`: raises iff the status is `4xx/5xx`. -/
def raise_for_status (st : Nat) : Except PyExc Unit :=
  if 400 ≤ st then .error (.httpError st) else .ok ()

/-- Result of the `getattr` chains in `_get_plex_connection_info`. -/
structure ConnInfo where
  url : String
  token : String
deriving DecidableEq, Repr

/-- What `_get_plex_connection_info` finds: no selected/active service
(`self.plex_service` is `None`), falsy url/token, an exception during
the lookups (caught), or a usable url/token pair. -/
inductive ConnRaw where
  | noService
  | missingAttrs
  | raises (e : PyExc)
  | okConn (c : ConnInfo)
deriving DecidableEq, Repr

/-- `if not plex_url.startswith('http'): plex_url = f"http://{plex_url}"`. -/
def ensureHttp (u : String) : String :=
  if "http".isPrefixOf u then u else "http://" ++ u

/-- `plex_url.rstrip('/')`. -/
def rstripSlash (u : String) : String :=
  ⟨(u.data.reverse.dropWhile (fun c => c = '/')).reverse⟩

/-- `_get_plex_connection_info`: every failure branch (including the
`except Exception` one) returns `None`; success normalizes the url. -/
def get_plex_connection_info : ConnRaw → Option ConnInfo
  | .noService => none
  | .missingAttrs => none
  | .raises _ => none
  | .okConn c => some { url := rstripSlash (ensureHttp c.url), token := c.token }

/-- One `Directory` element of `/library/sections`: title, key and
`Location` paths. -/
structure LibEntry where
  name : String
  id : String
  locations : List String
deriving DecidableEq, Repr

/-- `_get_library_info`: the whole request/parse is wrapped in
`try: ... except Exception: return {}`; the oracle supplies either the
parsed section list or the exception raised inside the `try`. -/
def get_library_info (sections : Except PyExc (List LibEntry)) : List LibEntry :=
  match sections with
  | .ok libs => libs
  | .error _ => []

/-- `_find_matching_library(target_path, library_info)`: normalize `\`
to `/`, then keep the `(name, id)` of the location that is a prefix of
the target and is strictly longer than the best so far (initial best
length 0, so an empty location never matches). -/
def find_matching_library (target : String) (libs : List LibEntry) :
    Option (String × String) :=
  let t := pyReplaceChar target '\\' '/'
  (libs.foldl
    (fun acc lib =>
      lib.locations.foldl
        (fun acc loc =>
          let l := pyReplaceChar loc '\\' '/'
          if l.isPrefixOf t ∧ acc.2 < l.length then
            (some (lib.name, lib.id), l.length)
          else acc)
        acc)
    ((none : Option (String × String)), 0)).1

/-- The external world of `_refresh_plex_path_http`: connection lookup
outcome, `/library/sections` outcome, and the refresh `GET`'s status
(or the network exception it raised), per target path. -/
structure HttpEnv where
  conn : ConnRaw
  sections : Except PyExc (List LibEntry)
  refreshStatus : String → Except PyExc Nat

/-- `_refresh_plex_path_http(target_path)`: early `return False` when
connection info, library info or a matching library is missing;
otherwise issue the refresh `GET`, `raise_for_status`, and report
`status == 200` — with both `except` clauses turning any raise into
`return False`.  Stated in `Except` so that an uncaught raise would be
visible as `.error`. -/
def refresh_plex_path_http (env : HttpEnv) (target : String) :
    Except PyExc Bool :=
  match get_plex_connection_info env.conn with
  | none => .ok false
  | some _ =>
    let libs := get_library_info env.sections
    if libs.isEmpty then .ok false
    else
      match find_matching_library target libs with
      | none => .ok false
      | some _ =>
        match (do
          let st ← env.refreshStatus target
          let _ ← raise_for_status st
          pure st : Except PyExc Nat) with
        | .error _ => .ok false
        | .ok st => .ok (decide (st = 200))

/-! ### `_execute_batch_refresh` after the critical section -/

/-- Result of one `_refresh_plex_path_http` call as seen by its caller:
a returned boolean, or a raised exception. -/
inductive RefreshOutcome where
  | ret (b : Bool)
  | exc
deriving DecidableEq, Repr

/-- What `_refresh_plex_path_http` looks like as a call outcome. -/
def outcomeOf (env : HttpEnv) (p : String) : RefreshOutcome :=
  match refresh_plex_path_http env p with
  | .ok b => .ret b
  | .error _ => .exc

/-- Observable actions of `_execute_batch_refresh`. -/
inductive BatchEvent where
  | batchRefresh (path : String) (r : RefreshOutcome)
  | pathRefresh (path : String) (r : RefreshOutcome)
  | sleep (seconds : Nat)
deriving DecidableEq, Repr

/-- The per-path fallback loop: for each path,
`try: self._refresh_plex_path_http(path); time.sleep(1) except: log` —
an exception skips the sleep and the loop continues with the next path. -/
def fallbackLoop (env : String → RefreshOutcome) : List String → List BatchEvent
  | [] => []
  | p :: rest =>
    match env p with
    | .exc => .pathRefresh p .exc :: fallbackLoop env rest
    | .ret b => .pathRefresh p (.ret b) :: .sleep 1 :: fallbackLoop env rest

/-- `_execute_batch_refresh(parent_path)`: capture-and-clear under the
lock (`captureBatch`), early return on an empty capture, then — outside
the lock — one batched call on the parent; on `False`, the per-path
fallback loop.  The batched call itself is not inside any `try`, so a
raise there would propagate (`.error`). -/
def execute_batch_refresh (env : String → RefreshOutcome) (parent : String)
    (s : SchedState) : Except PyExc (SchedState × List BatchEvent) :=
  match captureBatch parent s with
  | (s', none) => .ok (s', [])
  | (s', some paths) =>
    if paths.isEmpty then .ok (s', [])
    else
      match env parent with
      | .exc => .error .other
      | .ret true => .ok (s', [.batchRefresh parent (.ret true)])
      | .ret false =>
        .ok (s', .batchRefresh parent (.ret false) :: fallbackLoop env paths)

/-- The paths on which a per-path refresh attempt was made. -/
def attemptedPaths : List BatchEvent → List String
  | [] => []
  | .pathRefresh p _ :: rest => p :: attemptedPaths rest
  | _ :: rest => attemptedPaths rest

/-- Number of `time.sleep` pacing calls in a trace. -/
def sleepCount : List BatchEvent → Nat
  | [] => 0
  | .sleep _ :: rest => sleepCount rest + 1
  | _ :: rest => sleepCount rest

/-! ### The `refresh` event handler -/

/-- `transferinfo.target_diritem`. -/
structure DirItem where
  path : Option String
deriving DecidableEq, Repr

/-- The `transferinfo` payload fields the handler reads. -/
structure TransferInfoS where
  target_diritem : Option DirItem
deriving DecidableEq, Repr

/-- `event.event_data` fields the handler reads. -/
structure EventInfoS where
  transferinfo : Option TransferInfoS
deriving DecidableEq, Repr

/-- One `{'local': ..., 'plex': ...}` entry of `_path_maps`. -/
structure PathMapping where
  localRoot : String
  plexRoot : String
deriving DecidableEq, Repr

/-- `map_path(local_path)`: longest-prefix match over `_path_maps`
(empty `local`/`plex` entries are falsy and skipped; the best length
starts at `-1`, ties keep the earlier entry), then
`local_path.replace(local_prefix, plex_prefix, 1)` — since the path
starts with the chosen prefix, the single replacement happens at
position 0. -/
def map_path (maps : List PathMapping) (local_path : String) : Option String :=
  let best := (maps.foldl
    (fun acc m =>
      if m.localRoot ≠ "" ∧ m.plexRoot ≠ "" ∧ m.localRoot.isPrefixOf local_path
          ∧ acc.2 < (m.localRoot.length : Int) then
        (some (m.localRoot, m.plexRoot), (m.localRoot.length : Int))
      else acc)
    ((none : Option (String × String)), (-1 : Int))).1
  match best with
  | none => none
  | some (lp, pp) => some (pp ++ ⟨local_path.data.drop lp.data.length⟩)

/-- The normalization at the end of the handler:
`plex_path.replace("/", "\\") if "\\" in plex_path else plex_path`. -/
def normalize_plex_path (p : String) : String :=
  if '\\' ∈ p.data then pyReplaceChar p '/' '\\' else p

/-- The `refresh` event handler (registered on `TransferComplete`):
a cascade of early returns (disabled, no event data, no Plex service,
missing `transferinfo`/`target_diritem`/`path`, no path mapping), then
normalization and `_schedule_batch_refresh`.  Stated in `Except` so
that a raise would be visible as `.error`. -/
def refresh (enabled : Bool) (hasPlexService : Bool)
    (maps : List PathMapping) (isFile : String → Bool)
    (event_data : Option EventInfoS) (s : SchedState) :
    Except PyExc SchedState :=
  if !enabled then .ok s
  else
    match event_data with
    | none => .ok s
    | some info =>
      if !hasPlexService then .ok s
      else
        match info.transferinfo with
        | none => .ok s
        | some ti =>
          match ti.target_diritem with
          | none => .ok s
          | some di =>
            match di.path with
            | none => .ok s
            | some local_path =>
              match map_path maps local_path with
              | none => .ok s
              | some plex_path =>
                .ok (schedule_batch_refresh isFile
                  (normalize_plex_path plex_path) s)

/-! ### Reachability: interleavings of the three lock-guarded steps -/

/-- States reachable from `initState` by any interleaving of
`_schedule_batch_refresh`, the capture phase of `_execute_batch_refresh`
(the only part of it that touches the maps), and `stop_service` —
each a single critical section under `_timer_lock`. -/
inductive Reachable : SchedState → Prop
  | init : Reachable initState
  | sched (isFile : String → Bool) (p : String) (s : SchedState) :
      Reachable s → Reachable (schedule_batch_refresh isFile p s)
  | fire (parent : String) (s : SchedState) :
      Reachable s → Reachable (captureBatch parent s).1
  | stop (s : SchedState) : Reachable s → Reachable (stop_service s)

/-- The claimed invariant: the key sets of the two maps coincide, and
every pending set stored in the map is non-empty. -/
def SchedInv (s : SchedState) : Prop :=
  (∀ k, (assocFind k s.timers).isSome ↔ (assocFind k s.pending).isSome) ∧
  (∀ k l, assocFind k s.pending = some l → l ≠ [])

end PlexPartialRefresh

namespace HardLinkJacker

open PlexPartialRefresh (PyExc)

/-- Observable filesystem actions of `_custom_link_logic` (completed
operations, in order). -/
inductive LinkEvent where
  | unlink (p : String)
  | hardlink (dest src : String)
deriving DecidableEq, Repr

/-- Outcomes of the three filesystem calls of `_custom_link_logic`:
`dest.exists()`, `dest.unlink()`, `dest.hardlink_to(src)`. -/
structure LinkEnv where
  destExists : Except PyExc Bool
  unlinkResult : Except PyExc Unit
  hardlinkResult : Except PyExc Unit

/-- `str(err)` for the message interpolation. -/
def excStr : PyExc → String
  | .requestError => "RequestException"
  | .httpError _ => "HTTPError"
  | .other => "Exception"

/-- `f"自定义硬链接失败: {str(err)}"`. -/
def linkErrorMsg (e : PyExc) : String :=
  "自定义硬链接失败: " ++ excStr e

/-- `_custom_link_logic(src, dest)`: if `dest.exists()` then
`dest.unlink()`, then `dest.hardlink_to(src)`, returning `(0, "")`;
any exception is caught and turned into `(-1, message)`.  The second
component of the result is the list of completed filesystem actions. -/
def custom_link_logic (env : LinkEnv) (src dest : String) :
    (Int × String) × List LinkEvent :=
  match env.destExists with
  | .error e => ((-1, linkErrorMsg e), [])
  | .ok true =>
    match env.unlinkResult with
    | .error e => ((-1, linkErrorMsg e), [])
    | .ok _ =>
      match env.hardlinkResult with
      | .error e => ((-1, linkErrorMsg e), [.unlink dest])
      | .ok _ => ((0, ""), [.unlink dest, .hardlink dest src])
  | .ok false =>
    match env.hardlinkResult with
    | .error e => ((-1, linkErrorMsg e), [])
    | .ok _ => ((0, ""), [.hardlink dest src])

/-- `_custom_link_method(fileitem, target_file)`: `False` when
`fileitem.path` is falsy (`None` or empty); otherwise run
`_custom_link_logic` and report `code == 0`; its own
`except Exception: return False` can only fire on the (total) logic
call, so the method never raises. -/
def custom_link_method (env : LinkEnv) (fileitem_path : Option String)
    (target_file : String) : Bool :=
  match fileitem_path with
  | none => false
  | some p =>
    if p = "" then false
    else
      let r := custom_link_logic env p target_file
      if r.1.1 ≠ 0 then false else true

end HardLinkJacker

/-! ## Helper lemmas -/

open PlexPartialRefresh HardLinkJacker

theorem assocFind_assocSet {α : Type} (k k' : String) (v : α)
    (l : List (String × α)) :
    assocFind k (assocSet k' v l) = if k' = k then some v else assocFind k l := by
  induction l with
  | nil => simp [assocSet, assocFind]
  | cons hd tl ih =>
    obtain ⟨k₀, v₀⟩ := hd
    by_cases h₀ : k₀ = k'
    · subst h₀
      by_cases h₁ : k₀ = k <;> simp [assocSet, assocFind, h₁]
    · by_cases h₁ : k₀ = k
      · subst h₁
        simp [assocSet, assocFind, h₀, Ne.symm h₀, ih]
      · simp [assocSet, assocFind, h₀, h₁, ih]

theorem assocFind_assocErase {α : Type} (k k' : String)
    (l : List (String × α)) :
    assocFind k (assocErase k' l) = if k' = k then none else assocFind k l := by
  induction l with
  | nil => simp [assocErase, assocFind]
  | cons hd tl ih =>
    obtain ⟨a, v⟩ := hd
    by_cases h₀ : a = k'
    · subst h₀
      by_cases h₁ : a = k
      · subst h₁
        simp [assocErase, assocFind, ih]
      · simp [assocErase, assocFind, h₁, ih]
    · by_cases h₁ : a = k
      · subst h₁
        have hk : k' ≠ a := fun h => h₀ h.symm
        simp [assocErase, assocFind, h₀, hk, ih]
      · simp [assocErase, assocFind, h₀, h₁, ih]

theorem mem_setAdd (x p : String) (l : List String) :
    x ∈ setAdd p l ↔ x ∈ l ∨ x = p := by
  by_cases h : p ∈ l
  · simp only [setAdd, if_pos h]
    constructor
    · exact fun hx => Or.inl hx
    · rintro (hx | rfl) <;> [exact hx; exact h]
  · simp [setAdd, if_neg h]

theorem setAdd_ne_nil (p : String) (l : List String) : setAdd p l ≠ [] := by
  by_cases h : p ∈ l
  · simp only [setAdd, if_pos h]
    intro hnil
    rw [hnil] at h
    exact absurd h (List.not_mem_nil p)
  · simp [setAdd, if_neg h]

theorem nodup_setAdd (p : String) (l : List String) (h : l.Nodup) :
    (setAdd p l).Nodup := by
  by_cases hp : p ∈ l
  · simpa [setAdd, if_pos hp] using h
  · simp only [setAdd, if_neg hp]
    refine List.Nodup.append h (List.nodup_singleton p) ?_
    intro x hx hx'
    rw [List.mem_singleton] at hx'
    subst hx'
    exact hp hx

theorem linkErrorMsg_ne_empty (e : PyExc) : linkErrorMsg e ≠ "" := by
  cases e with
  | requestError => decide
  | httpError st =>
    show ("自定义硬链接失败: " ++ "HTTPError" : String) ≠ ""
    decide
  | other => decide

/-! ## Claim theorems -/

/-- C4.  The `batch_delay` configuration is clamped to `[10, 300]`:
parsed values below 10 become 10, above 300 become 300, in-range values
pass through, and a missing or unparseable value yields 60. -/
theorem batch_delay_clamped :
    (∀ n : Int, n < 10 → init_batch_delay (.parsed n) = 10) ∧
    (∀ n : Int, 300 < n → init_batch_delay (.parsed n) = 300) ∧
    (∀ n : Int, 10 ≤ n → n ≤ 300 → init_batch_delay (.parsed n) = n) ∧
    init_batch_delay .missing = 60 ∧
    init_batch_delay .unparseable = 60 := by
  refine ⟨?_, ?_, ?_, by decide, rfl⟩
  · intro n h
    simp [init_batch_delay, clampDelay, h]
  · intro n h
    rw [init_batch_delay, clampDelay, if_neg (by omega), if_pos h]
  · intro n h₁ h₂
    rw [init_batch_delay, clampDelay, if_neg (by omega), if_neg (by omega)]

/-- Witness for C4 at the concrete inputs 5, 400 and 42. -/
theorem batch_delay_clamped_witness :
    init_batch_delay (.parsed 5) = 10 ∧
    init_batch_delay (.parsed 400) = 300 ∧
    init_batch_delay (.parsed 42) = 42 :=
  ⟨batch_delay_clamped.1 5 (by decide),
   batch_delay_clamped.2.1 400 (by decide),
   batch_delay_clamped.2.2.1 42 (by decide) (by decide)⟩

/-- C10.  The handler's normalization of the mapped path: if the mapped
path contains a backslash, every forward slash in it is replaced by a
backslash; otherwise the path is passed on unchanged. -/
theorem normalize_path_backslash (p : String) :
    ('\\' ∈ p.data →
      (normalize_plex_path p).data =
        p.data.map (fun c => if c = '/' then '\\' else c)) ∧
    ('\\' ∉ p.data → normalize_plex_path p = p) := by
  constructor
  · intro h
    simp [normalize_plex_path, h, pyReplaceChar]
  · intro h
    simp [normalize_plex_path, h]

/-- Witness for C10: one path with a backslash, one without. -/
theorem normalize_path_backslash_witness :
    ('\\' ∈ "E:\\media/tv".data ∧
      (normalize_plex_path "E:\\media/tv").data =
        "E:\\media/tv".data.map (fun c => if c = '/' then '\\' else c)) ∧
    ('\\' ∉ "/media/tv".data ∧
      normalize_plex_path "/media/tv" = "/media/tv") :=
  ⟨⟨by decide, (normalize_path_backslash "E:\\media/tv").1 (by decide)⟩,
   ⟨by decide, (normalize_path_backslash "/media/tv").2 (by decide)⟩⟩

/-- C6.  Firing for a key that is absent from the pending map is a
no-op: no error, no events, no change to either map; and a second
`stop_service` after the first is a no-op as well. -/
theorem fire_absent_and_double_stop_noop :
    (∀ (env : String → RefreshOutcome) (k : String) (s : SchedState),
      assocFind k s.pending = none →
      execute_batch_refresh env k s = .ok (s, [])) ∧
    (∀ s : SchedState, stop_service (stop_service s) = stop_service s) := by
  constructor
  · intro env k s h
    simp [execute_batch_refresh, captureBatch, h]
  · intro s
    simp [stop_service]

/-- Witness for C6: firing for the key `"/k"` on the empty initial
state returns it unchanged. -/
theorem fire_absent_and_double_stop_noop_witness :
    assocFind "/k" initState.pending = none ∧
    execute_batch_refresh (fun _ => .ret true) "/k" initState =
      .ok (initState, []) :=
  ⟨rfl, fire_absent_and_double_stop_noop.1 (fun _ => .ret true) "/k" initState rfl⟩

/-- C7.  `stop_service` leaves both maps empty (so no cancelled handle
stays referenced), cancels every referenced timer that was still
uncancelled, and is idempotent. -/
theorem stop_service_idempotent (s : SchedState) :
    (stop_service s).pending = [] ∧
    (stop_service s).timers = [] ∧
    (∀ kv ∈ s.timers, kv.2 ∉ s.cancelled →
      kv.2 ∈ (stop_service s).cancelled) ∧
    stop_service (stop_service s) = stop_service s := by
  refine ⟨rfl, rfl, ?_, ?_⟩
  · intro kv hm hnc
    simp only [stop_service, List.mem_append]
    exact Or.inr (List.mem_filterMap.mpr ⟨kv, hm, by simp [hnc]⟩)
  · simp [stop_service]

/-- Witness for C7: after one schedule, the single live timer (id 0)
is cancelled by `stop_service`, and a second `stop_service` changes
nothing. -/
theorem stop_service_idempotent_witness :
    ("/a", 0) ∈
      (schedule_batch_refresh (fun _ => false) "/a/b.mkv" initState).timers ∧
    (0 : Nat) ∉
      (schedule_batch_refresh (fun _ => false) "/a/b.mkv" initState).cancelled ∧
    (0 : Nat) ∈
      (stop_service
        (schedule_batch_refresh (fun _ => false) "/a/b.mkv" initState)).cancelled ∧
    stop_service (stop_service
      (schedule_batch_refresh (fun _ => false) "/a/b.mkv" initState)) =
      stop_service (schedule_batch_refresh (fun _ => false) "/a/b.mkv" initState) :=
  ⟨by decide, by decide,
   (stop_service_idempotent _).2.2.1 ("/a", 0) (by decide) (by decide),
   (stop_service_idempotent _).2.2.2⟩

/-- C9.  The replacement link operation is unlink-then-hardlink: when
`dest` exists it is unlinked first and then the hard link to `src` is
created; on success the code is 0 (reported `True`), and any exception
yields code `-1` with a non-empty message, reported `False` by
`_custom_link_method` instead of propagating. -/
theorem custom_link_unlink_then_hardlink (env : LinkEnv) (src dest : String) :
    (env.destExists = .ok true → env.unlinkResult = .ok () →
      env.hardlinkResult = .ok () →
      custom_link_logic env src dest =
        ((0, ""), [.unlink dest, .hardlink dest src])) ∧
    (env.destExists = .ok false → env.hardlinkResult = .ok () →
      custom_link_logic env src dest = ((0, ""), [.hardlink dest src])) ∧
    ((custom_link_logic env src dest).1.1 = 0 ∨
      ((custom_link_logic env src dest).1.1 = -1 ∧
        (custom_link_logic env src dest).1.2 ≠ "")) ∧
    (src ≠ "" →
      custom_link_method env (some src) dest =
        decide ((custom_link_logic env src dest).1.1 = 0)) := by
  refine ⟨?_, ?_, ?_, ?_⟩
  · intro h₁ h₂ h₃
    simp [custom_link_logic, h₁, h₂, h₃]
  · intro h₁ h₂
    simp [custom_link_logic, h₁, h₂]
  · unfold custom_link_logic
    rcases env.destExists with e | b
    · exact Or.inr ⟨rfl, linkErrorMsg_ne_empty e⟩
    · cases b
      · rcases env.hardlinkResult with e | u
        · exact Or.inr ⟨rfl, linkErrorMsg_ne_empty e⟩
        · exact Or.inl rfl
      · rcases env.unlinkResult with e | u
        · exact Or.inr ⟨rfl, linkErrorMsg_ne_empty e⟩
        · rcases env.hardlinkResult with e | u
          · exact Or.inr ⟨rfl, linkErrorMsg_ne_empty e⟩
          · exact Or.inl rfl
  · intro hsrc
    simp only [custom_link_method, if_neg hsrc]
    by_cases h : (custom_link_logic env src dest).1.1 = 0 <;> simp [h]

/-- Witness for C9: the all-successful environment with an existing
destination performs unlink then hardlink and reports code 0 / `True`. -/
theorem custom_link_unlink_then_hardlink_witness :
    custom_link_logic ⟨.ok true, .ok (), .ok ()⟩ "s" "d" =
      ((0, ""), [.unlink "d", .hardlink "d" "s"]) ∧
    custom_link_method ⟨.ok true, .ok (), .ok ()⟩ (some "s") "d" =
      decide ((custom_link_logic ⟨.ok true, .ok (), .ok ()⟩ "s" "d").1.1 = 0) :=
  ⟨(custom_link_unlink_then_hardlink ⟨.ok true, .ok (), .ok ()⟩ "s" "d").1
      rfl rfl rfl,
   (custom_link_unlink_then_hardlink ⟨.ok true, .ok (), .ok ()⟩ "s" "d").2.2.2
      (by decide)⟩

theorem attemptedPaths_fallbackLoop (env : String → RefreshOutcome) :
    ∀ l : List String, attemptedPaths (fallbackLoop env l) = l := by
  intro l
  induction l with
  | nil => rfl
  | cons p rest ih =>
    cases h : env p <;> simp [fallbackLoop, h, attemptedPaths, ih]

theorem sleepCount_fallbackLoop (env : String → RefreshOutcome) :
    ∀ l : List String,
      sleepCount (fallbackLoop env l) =
        (l.filter (fun p => decide (env p ≠ .exc))).length := by
  intro l
  induction l with
  | nil => rfl
  | cons p rest ih =>
    cases h : env p with
    | exc => simp [fallbackLoop, h, sleepCount, List.filter, ih]
    | ret b => simp [fallbackLoop, h, sleepCount, List.filter, ih]

/-- C3.  If the batched refresh for the captured key returns `False`,
the fallback makes exactly one per-path attempt for each captured path,
in order and regardless of each attempt's outcome (returned failure or
raised exception), pacing with one `sleep` after every attempt that did
not raise. -/
theorem fallback_attempts_every_path (env : String → RefreshOutcome)
    (parent : String) (s : SchedState) (paths : List String)
    (hfind : assocFind parent s.pending = some paths) (hne : paths ≠ [])
    (hfail : env parent = .ret false) :
    (∃ s', execute_batch_refresh env parent s =
      .ok (s', .batchRefresh parent (.ret false) :: fallbackLoop env paths)) ∧
    attemptedPaths (fallbackLoop env paths) = paths ∧
    sleepCount (fallbackLoop env paths) =
      (paths.filter (fun p => decide (env p ≠ .exc))).length := by
  refine ⟨?_, attemptedPaths_fallbackLoop env paths, sleepCount_fallbackLoop env paths⟩
  have hempty : paths.isEmpty = false := by
    cases paths with
    | nil => exact absurd rfl hne
    | cons a l => rfl
  refine ⟨(captureBatch parent s).1, ?_⟩
  have hcb : captureBatch parent s = ((captureBatch parent s).1, some paths) := by
    simp [captureBatch, hfind]
  unfold execute_batch_refresh
  rw [hcb]
  simp [hempty, hfail]

/-- Witness for C3: two captured paths; the first per-path attempt
raises and the second is still made. -/
theorem fallback_attempts_every_path_witness :
    (assocFind "/par"
      (SchedState.mk [("/par", ["/par/a.mkv", "/par/b.mkv"])] [("/par", 0)] [] 1).pending =
        some ["/par/a.mkv", "/par/b.mkv"] ∧
     (fun p => if p = "/par" then RefreshOutcome.ret false
               else if p = "/par/a.mkv" then RefreshOutcome.exc
               else RefreshOutcome.ret true) "/par" = RefreshOutcome.ret false) ∧
    attemptedPaths
      (fallbackLoop
        (fun p => if p = "/par" then RefreshOutcome.ret false
                  else if p = "/par/a.mkv" then RefreshOutcome.exc
                  else RefreshOutcome.ret true)
        ["/par/a.mkv", "/par/b.mkv"]) = ["/par/a.mkv", "/par/b.mkv"] :=
  ⟨⟨by decide, by decide⟩,
   (fallback_attempts_every_path
      (fun p => if p = "/par" then RefreshOutcome.ret false
                else if p = "/par/a.mkv" then RefreshOutcome.exc
                else RefreshOutcome.ret true)
      "/par"
      (SchedState.mk [("/par", ["/par/a.mkv", "/par/b.mkv"])] [("/par", 0)] [] 1)
      ["/par/a.mkv", "/par/b.mkv"]
      (by decide) (by decide) (by decide)).2.1⟩

theorem refresh_plex_path_http_ok (env : HttpEnv) (target : String) :
    ∃ b, refresh_plex_path_http env target = .ok b := by
  unfold refresh_plex_path_http
  cases get_plex_connection_info env.conn with
  | none => exact ⟨false, rfl⟩
  | some c =>
    by_cases hlib : (get_library_info env.sections).isEmpty
    · exact ⟨false, by simp [hlib]⟩
    · simp only [hlib, if_false, Bool.false_eq_true]
      cases find_matching_library target (get_library_info env.sections) with
      | none => exact ⟨false, rfl⟩
      | some m =>
        cases hreq : (do
            let st ← env.refreshStatus target
            let _ ← raise_for_status st
            pure st : Except PyExc Nat) with
        | error e => exact ⟨false, by simp [hreq]⟩
        | ok st => exact ⟨decide (st = 200), by simp [hreq]⟩

theorem outcomeOf_ne_exc (env : HttpEnv) (p : String) :
    outcomeOf env p ≠ .exc := by
  obtain ⟨b, hb⟩ := refresh_plex_path_http_ok env p
  simp [outcomeOf, hb]

theorem execute_batch_refresh_ok (env : HttpEnv) (parent : String)
    (s : SchedState) :
    ∃ r, execute_batch_refresh (outcomeOf env) parent s = .ok r := by
  unfold execute_batch_refresh
  cases hcb : captureBatch parent s with
  | mk s' o =>
    cases o with
    | none => exact ⟨(s', []), rfl⟩
    | some paths =>
      by_cases hp : paths.isEmpty
      · exact ⟨(s', []), by simp [hp]⟩
      · cases ho : outcomeOf env parent with
        | exc => exact absurd ho (outcomeOf_ne_exc env parent)
        | ret b =>
          cases b
          · exact ⟨(s', .batchRefresh parent (.ret false) ::
              fallbackLoop (outcomeOf env) paths), by simp [hp, ho]⟩
          · exact ⟨(s', [.batchRefresh parent (.ret true)]), by simp [hp, ho]⟩

theorem refresh_handler_ok (enabled hasPlexService : Bool)
    (maps : List PathMapping) (isFile : String → Bool)
    (event_data : Option EventInfoS) (s : SchedState) :
    ∃ s', refresh enabled hasPlexService maps isFile event_data s = .ok s' := by
  unfold refresh
  repeat' split
  all_goals exact ⟨_, rfl⟩

/-- C8.  No operation of the refresh subsystem raises to its caller:
for every environment (including error responses and network failures,
which appear as `.error` values of the oracles), the HTTP refresh call,
the deferred batch execution driven by it, and the event handler
(which ends in `_schedule_batch_refresh`) all return `.ok`. -/
theorem refresh_subsystem_never_raises :
    (∀ (env : HttpEnv) (target : String),
      ∃ b, refresh_plex_path_http env target = .ok b) ∧
    (∀ (env : HttpEnv) (parent : String) (s : SchedState),
      ∃ r, execute_batch_refresh (outcomeOf env) parent s = .ok r) ∧
    (∀ (enabled hasPlexService : Bool) (maps : List PathMapping)
        (isFile : String → Bool) (event_data : Option EventInfoS)
        (s : SchedState),
      ∃ s', refresh enabled hasPlexService maps isFile event_data s = .ok s') :=
  ⟨refresh_plex_path_http_ok, execute_batch_refresh_ok, refresh_handler_ok⟩

theorem schedInv_init : SchedInv initState := by
  constructor
  · intro k
    simp [initState, assocFind]
  · intro k l h
    simp [initState, assocFind] at h

theorem schedInv_sched (isFile : String → Bool) (p : String) (s : SchedState)
    (h : SchedInv s) : SchedInv (schedule_batch_refresh isFile p s) := by
  obtain ⟨h₁, h₂⟩ := h
  constructor
  · intro k
    simp only [schedule_batch_refresh, assocFind_assocSet]
    by_cases hk : get_parent_path isFile p = k
    · simp [hk]
    · simp [hk, h₁ k]
  · intro k l hl
    simp only [schedule_batch_refresh, assocFind_assocSet] at hl
    by_cases hk : get_parent_path isFile p = k
    · rw [if_pos hk] at hl
      cases hl
      exact setAdd_ne_nil _ _
    · rw [if_neg hk] at hl
      exact h₂ k l hl

theorem schedInv_capture (parent : String) (s : SchedState)
    (h : SchedInv s) : SchedInv (captureBatch parent s).1 := by
  obtain ⟨h₁, h₂⟩ := h
  cases hf : assocFind parent s.pending with
  | none =>
    simp only [captureBatch, hf]
    exact ⟨h₁, h₂⟩
  | some paths =>
    have ht : (assocFind parent s.timers).isSome := by
      rw [h₁ parent, hf]
      rfl
    cases hft : assocFind parent s.timers with
    | none => rw [hft] at ht; exact absurd ht (by simp)
    | some tid =>
      simp only [captureBatch, hf, hft]
      constructor
      · intro k
        simp only [assocFind_assocErase]
        by_cases hk : parent = k
        · simp [hk]
        · simp [hk, h₁ k]
      · intro k l hl
        simp only [assocFind_assocErase] at hl
        by_cases hk : parent = k
        · rw [if_pos hk] at hl
          cases hl
        · rw [if_neg hk] at hl
          exact h₂ k l hl

theorem schedInv_stop (s : SchedState) : SchedInv (stop_service s) := by
  constructor
  · intro k
    simp [stop_service, assocFind]
  · intro k l h
    simp [stop_service, assocFind] at h

/-- C2.  In every state reachable by any interleaving of the three
lock-guarded critical sections (schedule, the map-mutating capture phase
of fire, and shutdown), the key sets of `_refresh_timers` and
`_pending_refreshes` coincide and every stored pending set is non-empty.
Each step mutates both maps inside one critical section, which the
model renders as one atomic transition of `Reachable`. -/
theorem reachable_maps_invariant (s : SchedState) (h : Reachable s) :
    SchedInv s := by
  induction h with
  | init => exact schedInv_init
  | sched isFile p s' _ ih => exact schedInv_sched isFile p s' ih
  | fire parent s' _ ih => exact schedInv_capture parent s' ih
  | stop s' _ ih => exact schedInv_stop s'

/-- Witness for C2: the invariant holds in the concrete reachable state
after one schedule followed by one capture. -/
theorem reachable_maps_invariant_witness :
    Reachable (captureBatch "/a"
      (schedule_batch_refresh (fun _ => false) "/a/b.mkv" initState)).1 ∧
    SchedInv (captureBatch "/a"
      (schedule_batch_refresh (fun _ => false) "/a/b.mkv" initState)).1 :=
  ⟨Reachable.fire "/a" _
      (Reachable.sched (fun _ => false) "/a/b.mkv" _ Reachable.init),
   reachable_maps_invariant _
     (Reachable.fire "/a" _
       (Reachable.sched (fun _ => false) "/a/b.mkv" _ Reachable.init))⟩

theorem scheduleSeq_singleKey (isFile : String → Bool) (P : String) :
    ∀ (ps : List String) (acc : List String) (j : Nat) (cs : List Nat),
      (∀ p ∈ ps, get_parent_path isFile p = P) → acc.Nodup →
      ∃ acc' cs',
        scheduleSeq isFile ps ⟨[(P, acc)], [(P, j)], cs, j + 1⟩ =
          ⟨[(P, acc')], [(P, j + ps.length)], cs', j + ps.length + 1⟩ ∧
        acc'.Nodup ∧
        (∀ x, x ∈ acc' ↔ x ∈ acc ∨ x ∈ ps) ∧
        (∀ t, t ∈ cs' ↔ (j ≤ t ∧ t < j + ps.length) ∨ t ∈ cs) := by
  intro ps
  induction ps with
  | nil =>
    intro acc j cs hkey hnd
    refine ⟨acc, cs, by simp [scheduleSeq], hnd, by simp, ?_⟩
    intro t
    constructor
    · exact fun h => Or.inr h
    · rintro (⟨h₁, h₂⟩ | h)
      · simp only [List.length_nil, Nat.add_zero] at h₂
        exact absurd h₁ (by omega)
      · exact h
  | cons p rest ih =>
    intro acc j cs hkey hnd
    have hp : get_parent_path isFile p = P := hkey p (List.mem_cons_self p rest)
    have hstep : schedule_batch_refresh isFile p ⟨[(P, acc)], [(P, j)], cs, j + 1⟩ =
        ⟨[(P, setAdd p acc)], [(P, j + 1)], j :: cs, j + 1 + 1⟩ := by
      simp [schedule_batch_refresh, hp, assocFind, assocSet]
    obtain ⟨acc', cs', heq, hnd', hmem, hcs⟩ :=
      ih (setAdd p acc) (j + 1) (j :: cs)
        (fun q hq => hkey q (List.mem_cons_of_mem p hq)) (nodup_setAdd p acc hnd)
    refine ⟨acc', cs', ?_, hnd', ?_, ?_⟩
    · show scheduleSeq isFile rest
          (schedule_batch_refresh isFile p ⟨[(P, acc)], [(P, j)], cs, j + 1⟩) = _
      simp only [List.length_cons]
      rw [show j + (rest.length + 1) = j + 1 + rest.length from by omega]
      rw [hstep]
      exact heq
    · intro x
      rw [hmem x, mem_setAdd]
      simp only [List.mem_cons]
      tauto
    · intro t
      rw [hcs t]
      simp only [List.mem_cons, List.length_cons]
      constructor
      · rintro (⟨h₁, h₂⟩ | (rfl | h))
        · exact Or.inl ⟨by omega, by omega⟩
        · exact Or.inl ⟨le_refl _, by omega⟩
        · exact Or.inr h
      · rintro (⟨h₁, h₂⟩ | h)
        · by_cases ht : t = j
          · exact Or.inr (Or.inl ht)
          · exact Or.inl ⟨by omega, by omega⟩
        · exact Or.inr (Or.inr h)

/-- C1.  A sequence of schedules within one delay window, all with the
same batching key `P`, leaves exactly one live (uncancelled) timer —
the one from the most recent call — with every earlier timer cancelled
and replaced; the single resulting fire captures exactly the
deduplicated set of scheduled paths and clears both map entries. -/
theorem batch_debounce_single_fire (isFile : String → Bool) (P : String)
    (ps : List String) (hne : ps ≠ [])
    (hkey : ∀ p ∈ ps, get_parent_path isFile p = P) :
    (scheduleSeq isFile ps initState).timers = [(P, ps.length - 1)] ∧
    (scheduleSeq isFile ps initState).nextId = ps.length ∧
    (ps.length - 1) ∉ (scheduleSeq isFile ps initState).cancelled ∧
    (∀ t, t < ps.length - 1 → t ∈ (scheduleSeq isFile ps initState).cancelled) ∧
    (∃ captured s',
      captureBatch P (scheduleSeq isFile ps initState) = (s', some captured) ∧
      captured.Nodup ∧ (∀ x, x ∈ captured ↔ x ∈ ps) ∧
      assocFind P s'.pending = none ∧ assocFind P s'.timers = none) ∧
    (∀ (s₀ : SchedState) (p : String) (tid : Nat),
      get_parent_path isFile p = P →
      assocFind P s₀.timers = some tid →
      assocFind P (schedule_batch_refresh isFile p s₀).timers = some s₀.nextId ∧
      tid ∈ (schedule_batch_refresh isFile p s₀).cancelled) := by
  obtain ⟨p, rest, rfl⟩ : ∃ p rest, ps = p :: rest := by
    cases ps with
    | nil => exact absurd rfl hne
    | cons a l => exact ⟨a, l, rfl⟩
  have hp : get_parent_path isFile p = P := hkey p (List.mem_cons_self p rest)
  have hstep : scheduleSeq isFile (p :: rest) initState =
      scheduleSeq isFile rest ⟨[(P, [p])], [(P, 0)], [], 0 + 1⟩ := by
    simp [scheduleSeq, schedule_batch_refresh, initState, hp, assocFind,
      assocSet, setAdd]
  obtain ⟨acc', cs', heq, hnd', hmem, hcs⟩ :=
    scheduleSeq_singleKey isFile P rest [p] 0 []
      (fun q hq => hkey q (List.mem_cons_of_mem p hq)) (List.nodup_singleton p)
  rw [hstep, heq]
  refine ⟨?_, ?_, ?_, ?_, ?_, ?_⟩
  · simp
  · simp
  · intro hmemc
    rcases (hcs _).mp hmemc with ⟨h₁, h₂⟩ | h
    · simp only [List.length_cons] at h₂
      omega
    · exact absurd h (List.not_mem_nil _)
  · intro t ht
    refine (hcs t).mpr (Or.inl ⟨by omega, ?_⟩)
    simp only [List.length_cons] at ht
    omega
  · refine ⟨acc', ⟨[], [], cs', 0 + rest.length + 1⟩, ?_, hnd', ?_, rfl, rfl⟩
    · simp [captureBatch, assocFind, assocErase]
    · intro x
      rw [hmem x]
      simp
  · intro s₀ q tid hq htid
    constructor
    · simp [schedule_batch_refresh, hq, assocFind_assocSet]
    · simp [schedule_batch_refresh, hq, htid]

/-- Witness for C1: three schedules (one a duplicate) under the parent
`"/lib/showA/s01"`; the live timer is the third one (id 2) and the fire
captures the two distinct paths. -/
theorem batch_debounce_single_fire_witness :
    (["/lib/showA/s01/e01.mkv", "/lib/showA/s01/e02.mkv",
      "/lib/showA/s01/e01.mkv"] : List String) ≠ [] ∧
    (∀ p ∈ (["/lib/showA/s01/e01.mkv", "/lib/showA/s01/e02.mkv",
        "/lib/showA/s01/e01.mkv"] : List String),
      get_parent_path (fun _ => false) p = "/lib/showA/s01") ∧
    (scheduleSeq (fun _ => false)
      ["/lib/showA/s01/e01.mkv", "/lib/showA/s01/e02.mkv",
        "/lib/showA/s01/e01.mkv"] initState).timers =
      [("/lib/showA/s01", 2)] ∧
    (∃ captured s',
      captureBatch "/lib/showA/s01"
        (scheduleSeq (fun _ => false)
          ["/lib/showA/s01/e01.mkv", "/lib/showA/s01/e02.mkv",
            "/lib/showA/s01/e01.mkv"] initState) = (s', some captured) ∧
      captured.Nodup ∧
      (∀ x, x ∈ captured ↔ x ∈ (["/lib/showA/s01/e01.mkv",
        "/lib/showA/s01/e02.mkv", "/lib/showA/s01/e01.mkv"] : List String)) ∧
      assocFind "/lib/showA/s01" s'.pending = none ∧
      assocFind "/lib/showA/s01" s'.timers = none) :=
  ⟨by decide, by decide,
   (batch_debounce_single_fire (fun _ => false) "/lib/showA/s01"
      ["/lib/showA/s01/e01.mkv", "/lib/showA/s01/e02.mkv",
        "/lib/showA/s01/e01.mkv"] (by decide) (by decide)).1,
   (batch_debounce_single_fire (fun _ => false) "/lib/showA/s01"
      ["/lib/showA/s01/e01.mkv", "/lib/showA/s01/e02.mkv",
        "/lib/showA/s01/e01.mkv"] (by decide) (by decide)).2.2.2.2.1⟩

/-- C5 counterexample.  On a filesystem where `"/lib/showB.mkv"` is a
directory (so `isFile` is false on it and `isDir` is true), the code
returns the parent `"/lib"` — the name's `.mkv` suffix wins — while the
spec sentence ("a directory ... is its own key") demands
`"/lib/showB.mkv"` itself. -/
theorem get_parent_path_spec_counterexample :
    get_parent_path (fun _ => false) "/lib/showB.mkv" = "/lib" ∧
    spec_parent_key (fun _ => true) "/lib/showB.mkv" = "/lib/showB.mkv" ∧
    get_parent_path (fun _ => false) "/lib/showB.mkv" ≠
      spec_parent_key (fun _ => true) "/lib/showB.mkv" :=
  ⟨by decide, by decide, by decide⟩

/-- C5 (amended).  The batching key is the path's parent exactly when
the path is a regular file or its final name ends with a recognized
media extension; otherwise the key is the path itself — in particular
`schedule("/lib/showB")` on a directory batches under `"/lib/showB"`. -/
theorem get_parent_path_amended :
    (∀ (isFile : String → Bool) (p : String),
      (¬ (isFile (pathStr (parsePath p)) = true ∨
          hasMediaExt (pathNameChars (parsePath p)) = true) →
        get_parent_path isFile p = pathStr (parsePath p)) ∧
      ((isFile (pathStr (parsePath p)) = true ∨
          hasMediaExt (pathNameChars (parsePath p)) = true) →
        get_parent_path isFile p = pathStr (pathParent (parsePath p)))) ∧
    get_parent_path (fun _ => false) "/lib/showB" = "/lib/showB" ∧
    get_parent_path (fun _ => false) "/lib/showA/s01/e01.mkv" =
      "/lib/showA/s01" := by
  refine ⟨?_, by decide, by decide⟩
  intro isFile p
  constructor <;> intro h <;>
    cases hf : isFile (pathStr (parsePath p)) <;>
    cases hm : hasMediaExt (pathNameChars (parsePath p)) <;>
    simp_all [get_parent_path]

/-- Witness for C5 (amended) at a directory-like path and a media-file
path. -/
theorem get_parent_path_amended_witness :
    (¬ ((fun (_ : String) => false) (pathStr (parsePath "/lib/showB")) = true ∨
        hasMediaExt (pathNameChars (parsePath "/lib/showB")) = true)) ∧
    get_parent_path (fun _ => false) "/lib/showB" =
      pathStr (parsePath "/lib/showB") ∧
    (((fun (_ : String) => false) (pathStr (parsePath "/lib/showA/s01/e01.mkv")) = true ∨
        hasMediaExt (pathNameChars (parsePath "/lib/showA/s01/e01.mkv")) = true)) ∧
    get_parent_path (fun _ => false) "/lib/showA/s01/e01.mkv" =
      pathStr (pathParent (parsePath "/lib/showA/s01/e01.mkv")) :=
  ⟨by decide,
   (get_parent_path_amended.1 (fun _ => false) "/lib/showB").1 (by decide),
   by decide,
   (get_parent_path_amended.1 (fun _ => false) "/lib/showA/s01/e01.mkv").2
     (by decide)⟩
